import Mathlib

/-!
Verification of the bmad-automate lifecycle orchestration engine.

This file gives a shallow embedding of the Go sources:
  - `internal/router/lifecycle.go` (`GetLifecycle`, `LifecycleStep`),
  - `internal/lifecycle/executor.go` (`Execute`, `GetSteps`, progress callback),
  - `internal/status/writer.go` (`UpdateStatus`, `updateStoryStatusInNode`),
and proves the specified properties of the sequence derivation, the fail-fast
executor, the dry-run preview, and the status writer.
-/

/-! ## Status model

`internal/status` declares `type Status string` together with five constants.
The declaring file is not among the sources, but the constant strings are
pinned by the YAML fixtures of `internal/status/reader_test.go` and
`internal/status/writer_test.go` (`backlog`, `ready-for-dev`, `in-progress`,
`review`, `done`) and by `internal/router/lifecycle.go`, which switches on the
constants. -/

/-- Modelled from the spec: the enumerated status set of `internal/status`
(`type Status string`); string values pinned by the test fixtures. -/
abbrev Status := String

def StatusBacklog : Status := "backlog"

def StatusReadyForDev : Status := "ready-for-dev"

def StatusInProgress : Status := "in-progress"

def StatusReview : Status := "review"

def StatusDone : Status := "done"

/-- The closed enumerated set of statuses (spec section 3: five values). -/
def EnumeratedStatuses : List Status :=
  [StatusBacklog, StatusReadyForDev, StatusInProgress, StatusReview, StatusDone]

/-- Modelled from the spec: `Status.IsValid` of `internal/status` (file not in
the sources; behaviour pinned by `TestWriter_UpdateStatus_InvalidStatus`):
membership in the enumerated set. -/
def StatusIsValid (s : Status) : Bool :=
  s = StatusBacklog || s = StatusReadyForDev || s = StatusInProgress ||
    s = StatusReview || s = StatusDone

/-! ## Sequence deriver (`internal/router/lifecycle.go`) -/

/-- The two sentinel errors of `internal/router/router.go`:
`ErrStoryComplete` and `ErrUnknownStatus`. -/
inductive RouterError where
  | storyComplete
  | unknownStatus
deriving DecidableEq, Repr

/-- `router.LifecycleStep`: a workflow name and the status to transition to
after that workflow completes. -/
structure LifecycleStep where
  workflow : String
  nextStatus : Status
deriving DecidableEq, Repr

/-- The full four-step sequence returned for `StatusBacklog`
(`internal/router/lifecycle.go`, first switch case). -/
def FullBacklogSequence : List LifecycleStep :=
  [⟨"create-story", StatusReadyForDev⟩,
   ⟨"dev-story", StatusReview⟩,
   ⟨"code-review", StatusDone⟩,
   ⟨"git-commit", StatusDone⟩]

/-- `router.GetLifecycle` (`internal/router/lifecycle.go` lines 16-41).
Go returns `([]LifecycleStep, error)`; we return the step list together with
an optional sentinel error (the error cases return a nil slice, i.e. `[]`).
The Go `switch` on the string-backed status is an equality dispatch, embedded
as an if-chain; the two-value case `StatusReadyForDev, StatusInProgress` is
two branches with the same body. -/
def GetLifecycle (s : Status) : List LifecycleStep × Option RouterError :=
  if s = StatusBacklog then
    (FullBacklogSequence, none)
  else if s = StatusReadyForDev then
    ([⟨"dev-story", StatusReview⟩, ⟨"code-review", StatusDone⟩,
      ⟨"git-commit", StatusDone⟩], none)
  else if s = StatusInProgress then
    ([⟨"dev-story", StatusReview⟩, ⟨"code-review", StatusDone⟩,
      ⟨"git-commit", StatusDone⟩], none)
  else if s = StatusReview then
    ([⟨"code-review", StatusDone⟩, ⟨"git-commit", StatusDone⟩], none)
  else if s = StatusDone then
    ([], some RouterError.storyComplete)
  else
    ([], some RouterError.unknownStatus)

/-! ## Execution engine (`internal/lifecycle/executor.go`)

The executor's collaborators (workflow runner, status reader, status writer,
optional progress callback) are injected; a run is modelled by the ordered
trace of collaborator calls it makes together with its result. -/

/-- A collaborator call made during a run. The first three constructors are
the calls appearing in `Executor.Execute`. The two checkpoint constructors
are modelled from the spec (Checkpoint Store contract, spec sections 3/4.3);
no checkpoint-store code exists under the sources and the `Executor` struct
has no checkpoint-store field, so the embedded executor never emits them -
they exist so that checkpoint claims are statable over the trace. -/
inductive Event where
  | progress (stepIndex totalSteps : Nat) (workflow : String)
  | runWorkflow (workflow storyKey : String)
  | updateStatus (storyKey : String) (newStatus : Status)
  | saveCheckpoint (storyKey : String) (stepIndex totalSteps : Nat) (startStatus : Status)
  | clearCheckpoint (storyKey : String)
deriving DecidableEq, Repr

/-- The error outcomes of `Executor.Execute` and `Executor.GetSteps`: a status
lookup failure propagated verbatim, a router sentinel propagated verbatim, the
`workflow failed: %s returned exit code %d` error, or a status-update failure
propagated verbatim. -/
inductive ExecError where
  | lookupFailed (msg : String)
  | router (e : RouterError)
  | workflowFailed (workflow : String) (exitCode : Int)
  | updateFailed (msg : String)
deriving DecidableEq, Repr

def isProgressEvent : Event → Bool
  | .progress .. => true
  | _ => false

def isRunEvent : Event → Bool
  | .runWorkflow .. => true
  | _ => false

def isUpdateEvent : Event → Bool
  | .updateStatus .. => true
  | _ => false

def isCheckpointEvent : Event → Bool
  | .saveCheckpoint .. => true
  | .clearCheckpoint .. => true
  | _ => false

/-- The step loop of `Executor.Execute` (executor.go lines 113-129).
`runner i` is the exit code returned by the i-th `RunSingle` call of the run
(Go passes `(ctx, step.Workflow, storyKey)`; within one run the i-th call's
arguments are determined by `i`, so the collaborator is an oracle indexed by
call position). `writeErr i` is the error, if any, returned by the i-th
`UpdateStatus` call. `hasCb` is whether `progressCallback != nil`. Per step:
progress callback if set, then the runner call (non-zero exit fails the run
with no status write), then the status write (a write error fails the run).
Returns the trace of collaborator calls in order, and the result. -/
def executeSteps (runner : Nat → Int) (writeErr : Nat → Option String)
    (hasCb : Bool) (storyKey : String) (totalSteps : Nat) :
    List LifecycleStep → Nat → List Event × Except ExecError Unit
  | [], _ => ([], Except.ok ())
  | step :: rest, i =>
    let progressEvents :=
      if hasCb then [Event.progress (i + 1) totalSteps step.workflow] else []
    let exitCode := runner i
    if exitCode ≠ 0 then
      (progressEvents ++ [Event.runWorkflow step.workflow storyKey],
       Except.error (ExecError.workflowFailed step.workflow exitCode))
    else
      match writeErr i with
      | some msg =>
        (progressEvents ++ [Event.runWorkflow step.workflow storyKey,
          Event.updateStatus storyKey step.nextStatus],
         Except.error (ExecError.updateFailed msg))
      | none =>
        let r := executeSteps runner writeErr hasCb storyKey totalSteps rest (i + 1)
        (progressEvents ++ Event.runWorkflow step.workflow storyKey ::
          Event.updateStatus storyKey step.nextStatus :: r.1, r.2)

/-- `Executor.Execute` (executor.go lines 96-132): look up the story's status
(`readerRes` is the lookup result; a lookup error is returned unchanged),
derive the steps via `GetLifecycle` (a sentinel error is returned unchanged),
then run each step in sequence with `totalSteps = len(steps)`. -/
def Execute (readerRes : Except String Status) (runner : Nat → Int)
    (writeErr : Nat → Option String) (hasCb : Bool) (storyKey : String) :
    List Event × Except ExecError Unit :=
  match readerRes with
  | Except.error msg => ([], Except.error (ExecError.lookupFailed msg))
  | Except.ok currentStatus =>
    match GetLifecycle currentStatus with
    | (_, some e) => ([], Except.error (ExecError.router e))
    | (steps, none) => executeSteps runner writeErr hasCb storyKey steps.length steps 0

/-- `Executor.GetSteps` (executor.go lines 142-156): the dry-run preview. It
performs the same status lookup and derivation as `Execute` and returns the
steps; its body contains no runner, writer or progress-callback call, so its
trace is empty by construction. -/
def GetSteps (readerRes : Except String Status) :
    List Event × Except ExecError (List LifecycleStep) :=
  match readerRes with
  | Except.error msg => ([], Except.error (ExecError.lookupFailed msg))
  | Except.ok currentStatus =>
    match GetLifecycle currentStatus with
    | (_, some e) => ([], Except.error (ExecError.router e))
    | (steps, none) => ([], Except.ok steps)

/-- The interleaved trace of a fully successful run with an observer
registered, starting at 0-based step `i`: for each step, the progress call
(1-based index, total, workflow), the runner call, the status write. -/
def fullRunTraceFrom (storyKey : String) (total : Nat) :
    List LifecycleStep → Nat → List Event
  | [], _ => []
  | step :: rest, i =>
    Event.progress (i + 1) total step.workflow ::
    Event.runWorkflow step.workflow storyKey ::
    Event.updateStatus storyKey step.nextStatus ::
    fullRunTraceFrom storyKey total rest (i + 1)

/-- The full interleaved trace of a successful observer-registered run. -/
def fullRunTrace (steps : List LifecycleStep) (storyKey : String)
    (total : Nat) : List Event :=
  fullRunTraceFrom storyKey total steps 0

/-- The progress/runner alternation over a list of attempted steps starting
at 0-based step `i`: for each step, the observer invocation
(1-based index, total, workflow) immediately followed by the runner call.
Used to state that in every run - failing at any point or not - each
attempted step gets exactly one observer invocation, placed immediately
before its runner call. -/
def progressRunPairs (storyKey : String) (total : Nat) :
    List LifecycleStep → Nat → List Event
  | [], _ => []
  | step :: rest, i =>
    Event.progress (i + 1) total step.workflow ::
    Event.runWorkflow step.workflow storyKey ::
    progressRunPairs storyKey total rest (i + 1)

/-! ## Status writer (`internal/status/writer.go`)

`Writer.UpdateStatus` validates the new status, reads and parses
`sprint-status.yaml` into a `yaml.Node` tree, updates the story's value node
in place via `updateStoryStatusInNode`, and writes the marshalled tree back
atomically. The node tree and the two `i += 2` mapping traversals are
embedded below; the functional image of Go's in-place pointer mutation is a
rebuild of the tree along the path to the mutated value node. -/

/-- The `yaml.Node` kinds of gopkg.in/yaml.v3. -/
inductive YamlKind where
  | document
  | sequence
  | mapping
  | scalar
  | aliasNode
deriving DecidableEq, Repr

/-- A `yaml.Node`: kind, scalar value, and the flat child list (for a mapping
node the parser produces alternating key and value nodes, so well-formed
mapping content has even length). Only the fields the writer touches are
modelled. -/
inductive YamlNode where
  | node (kind : YamlKind) (value : String) (content : List YamlNode)

def YamlNode.kind : YamlNode → YamlKind
  | .node k _ _ => k

def YamlNode.value : YamlNode → String
  | .node _ v _ => v

def YamlNode.content : YamlNode → List YamlNode
  | .node _ _ c => c

/-- `valueNode.Value = string(newStatus)`: Go mutates only the `Value` field,
keeping the node's kind and content. -/
def setNodeValue (n : YamlNode) (v : String) : YamlNode :=
  YamlNode.node n.kind v n.content

/-- The error outcomes of `Writer.UpdateStatus`, one constructor per
`fmt.Errorf` site: `invalid status: %s`, `failed to read sprint status`,
`failed to parse sprint status`, `invalid YAML document structure`,
`expected mapping at root level`, `development_status not found in file`,
`development_status is not a mapping`, `story not found: %s`. -/
inductive WriteError where
  | invalidStatus (s : String)
  | readFailed
  | parseFailed
  | invalidDocument
  | rootNotMapping
  | devStatusNotFound
  | devStatusNotMapping
  | storyNotFound (key : String)
deriving DecidableEq, Repr

/-- The `i += 2` search over a mapping node's flat content
(`updateStoryStatusInNode`, first loop): the value node following the first
key node whose `Value` equals `key`. A trailing odd element cannot be
followed by a value (the parser produces even-length mapping content). -/
def findMapValue : List YamlNode → String → Option YamlNode
  | k :: v :: rest, key => if k.value = key then some v else findMapValue rest key
  | _, _ => none

/-- The `i += 2` search-and-update over the `development_status` content
(`updateStoryStatusInNode`, second loop): set the `Value` of the value node
following the first key node matching `key`; `none` when no key matches
(Go then returns the `story not found` error). -/
def updateMapValue : List YamlNode → String → String → Option (List YamlNode)
  | k :: v :: rest, key, newVal =>
    if k.value = key then some (k :: setNodeValue v newVal :: rest)
    else
      match updateMapValue rest key newVal with
      | some rest2 => some (k :: v :: rest2)
      | none => none
  | _, _, _ => none

/-- The root-mapping traversal of `updateStoryStatusInNode`: find the first
`development_status` key among the root pairs (missing: the `not found`
error), require its value to be a mapping, update the story's value node in
its content, and rebuild the root pairs with the updated mapping node in
place (the functional image of Go's in-place mutation through the
`devStatusNode` pointer). -/
def updateRootPairs : List YamlNode → String → Status → Except WriteError (List YamlNode)
  | k :: v :: rest, storyKey, newStatus =>
    if k.value = "development_status" then
      if v.kind ≠ YamlKind.mapping then Except.error WriteError.devStatusNotMapping
      else
        match updateMapValue v.content storyKey newStatus with
        | none => Except.error (WriteError.storyNotFound storyKey)
        | some newPairs =>
          Except.ok (k :: YamlNode.node v.kind v.value newPairs :: rest)
    else
      match updateRootPairs rest storyKey newStatus with
      | Except.ok rest2 => Except.ok (k :: v :: rest2)
      | Except.error e => Except.error e
  | _, _, _ => Except.error WriteError.devStatusNotFound

/-- `updateStoryStatusInNode` (`internal/status/writer.go`): require a
document node with non-empty content whose first child is a mapping, then
update the story's status under `development_status` and rebuild the
document. -/
def updateStoryStatusInNode (doc : YamlNode) (storyKey : String)
    (newStatus : Status) : Except WriteError YamlNode :=
  if doc.kind ≠ YamlKind.document then Except.error WriteError.invalidDocument
  else
    match doc.content with
    | [] => Except.error WriteError.invalidDocument
    | root :: restDoc =>
      if root.kind ≠ YamlKind.mapping then Except.error WriteError.rootNotMapping
      else
        match updateRootPairs root.content storyKey newStatus with
        | Except.error e => Except.error e
        | Except.ok newPairs =>
          Except.ok (YamlNode.node doc.kind doc.value
            (YamlNode.node root.kind root.value newPairs :: restDoc))

/-- Outcome of the read-and-parse prefix of `Writer.UpdateStatus`: `missing` -
`os.ReadFile` fails; `unparsable` - `yaml.Unmarshal` fails; `doc d` - the
parsed document node. -/
inductive ReadResult where
  | missing
  | unparsable
  | doc (d : YamlNode)

/-- `Writer.UpdateStatus` (`internal/status/writer.go`): validate the new
status first, then read and parse the stored file, then update the story's
node, then marshal and write back atomically. Success is modelled as
returning the new document (the new file content); the temp-file/rename
mechanics and os-level write failures are filesystem effects outside the
model. The validation precedes every file access, so no error path after it
touches the file. -/
def UpdateStatus (file : ReadResult) (storyKey : String) (newStatus : Status) :
    Except WriteError YamlNode :=
  if !StatusIsValid newStatus then
    Except.error (WriteError.invalidStatus newStatus)
  else
    match file with
    | ReadResult.missing => Except.error WriteError.readFailed
    | ReadResult.unparsable => Except.error WriteError.parseFailed
    | ReadResult.doc d => updateStoryStatusInNode d storyKey newStatus

/-- The key strings of a flat mapping content list, in order (projection used
to state the frame property). -/
def keysOfPairs : List YamlNode → List String
  | k :: _ :: rest => k.value :: keysOfPairs rest
  | _ => []

/-- The status value recorded for a story key in a parsed sprint-status
document: the value of the entry under the first `development_status`
mapping of the first root child (projection used to state the frame
property). -/
def storyStatusOf (doc : YamlNode) (storyKey : String) : Option String :=
  match doc.content with
  | root :: _ =>
    match findMapValue root.content "development_status" with
    | some dev => (findMapValue dev.content storyKey).map YamlNode.value
    | none => none
  | [] => none

/-- The story keys of the `development_status` mapping, in file order
(projection used to state order preservation). -/
def storyKeysOf (doc : YamlNode) : List String :=
  match doc.content with
  | root :: _ =>
    match findMapValue root.content "development_status" with
    | some dev => keysOfPairs dev.content
    | none => []
  | [] => []

/-- The root keys of a parsed sprint-status document, in file order
(projection used to state order preservation at the root level). -/
def rootKeysOf (doc : YamlNode) : List String :=
  match doc.content with
  | root :: _ => keysOfPairs root.content
  | [] => []

/-- The `development_status` mapping node of the fixture of
`TestWriter_UpdateStatus_Success`: three stories with their statuses. -/
def testDevStatusNode : YamlNode :=
  YamlNode.node YamlKind.mapping ""
    [YamlNode.node YamlKind.scalar "7-1-define-schema" [],
     YamlNode.node YamlKind.scalar "ready-for-dev" [],
     YamlNode.node YamlKind.scalar "7-2-create-api" [],
     YamlNode.node YamlKind.scalar "in-progress" [],
     YamlNode.node YamlKind.scalar "7-3-build-ui" [],
     YamlNode.node YamlKind.scalar "backlog" []]

/-- The root mapping node of the same fixture: a single
`development_status` entry. -/
def testRootNode : YamlNode :=
  YamlNode.node YamlKind.mapping ""
    [YamlNode.node YamlKind.scalar "development_status" [], testDevStatusNode]

/-- The parsed fixture document of `TestWriter_UpdateStatus_Success`. -/
def testSprintDoc : YamlNode :=
  YamlNode.node YamlKind.document "" [testRootNode]

/-- The fixture document after updating `7-1-define-schema` to
`in-progress` (the scenario of `TestWriter_UpdateStatus_Success`). -/
def testSprintDocUpdated71 : YamlNode :=
  YamlNode.node YamlKind.document ""
    [YamlNode.node YamlKind.mapping ""
      [YamlNode.node YamlKind.scalar "development_status" [],
       YamlNode.node YamlKind.mapping ""
         [YamlNode.node YamlKind.scalar "7-1-define-schema" [],
          YamlNode.node YamlKind.scalar "in-progress" [],
          YamlNode.node YamlKind.scalar "7-2-create-api" [],
          YamlNode.node YamlKind.scalar "in-progress" [],
          YamlNode.node YamlKind.scalar "7-3-build-ui" [],
          YamlNode.node YamlKind.scalar "backlog" []]]]

/-- The fixture document after updating `7-2-create-api` to `review` (the
scenario of `TestWriter_UpdateStatus_PreservesFormatting`). -/
def testSprintDocUpdated72 : YamlNode :=
  YamlNode.node YamlKind.document ""
    [YamlNode.node YamlKind.mapping ""
      [YamlNode.node YamlKind.scalar "development_status" [],
       YamlNode.node YamlKind.mapping ""
         [YamlNode.node YamlKind.scalar "7-1-define-schema" [],
          YamlNode.node YamlKind.scalar "ready-for-dev" [],
          YamlNode.node YamlKind.scalar "7-2-create-api" [],
          YamlNode.node YamlKind.scalar "review" [],
          YamlNode.node YamlKind.scalar "7-3-build-ui" [],
          YamlNode.node YamlKind.scalar "backlog" []]]]

/-- C2: `GetLifecycle` is a pure function of its status input (it is a Lean
function of `s` alone) returning for the backlog status exactly the four steps
(create-story -> ready-for-dev), (dev-story -> review), (code-review -> done),
(git-commit -> done) in that order; for each of ready-for-dev and in-progress
exactly the last three of those steps; and for review exactly the last two. -/
theorem c2_getLifecycle_sequences :
    GetLifecycle StatusBacklog =
      ([⟨"create-story", StatusReadyForDev⟩, ⟨"dev-story", StatusReview⟩,
        ⟨"code-review", StatusDone⟩, ⟨"git-commit", StatusDone⟩], none) ∧
    GetLifecycle StatusReadyForDev =
      ([⟨"dev-story", StatusReview⟩, ⟨"code-review", StatusDone⟩,
        ⟨"git-commit", StatusDone⟩], none) ∧
    GetLifecycle StatusInProgress =
      ([⟨"dev-story", StatusReview⟩, ⟨"code-review", StatusDone⟩,
        ⟨"git-commit", StatusDone⟩], none) ∧
    GetLifecycle StatusReview =
      ([⟨"code-review", StatusDone⟩, ⟨"git-commit", StatusDone⟩], none) := by
  refine ⟨?_, ?_, ?_, ?_⟩ <;> decide

/-- C6: `GetLifecycle` on the done status always returns an empty sequence with
the `ErrStoryComplete` sentinel, and on any value outside the five enumerated
statuses always returns the `ErrUnknownStatus` sentinel (with an empty
sequence); the two sentinels are distinct constructors. -/
theorem c6_sentinel_outcomes :
    GetLifecycle StatusDone = ([], some RouterError.storyComplete) ∧
    ∀ s : Status, s ∉ EnumeratedStatuses →
      GetLifecycle s = ([], some RouterError.unknownStatus) := by
  constructor
  · decide
  · intro s hs
    have h1 : ¬ s = StatusBacklog := fun h => hs (by rw [h]; decide)
    have h2 : ¬ s = StatusReadyForDev := fun h => hs (by rw [h]; decide)
    have h3 : ¬ s = StatusInProgress := fun h => hs (by rw [h]; decide)
    have h4 : ¬ s = StatusReview := fun h => hs (by rw [h]; decide)
    have h5 : ¬ s = StatusDone := fun h => hs (by rw [h]; decide)
    simp [GetLifecycle, h1, h2, h3, h4, h5]

/-- Witness for C6 at the concrete out-of-set value `invalid-status`. -/
theorem c6_sentinel_outcomes_witness :
    ("invalid-status" ∉ EnumeratedStatuses) ∧
    GetLifecycle "invalid-status" = ([], some RouterError.unknownStatus) :=
  ⟨by decide, c6_sentinel_outcomes.2 "invalid-status" (by decide)⟩

/-- C7: every sequence `GetLifecycle` returns without a sentinel error is
non-empty, its final step is (git-commit -> done) and the step immediately
before it is (code-review -> done): the last two steps map to the same
terminal status. -/
theorem c7_terminal_status_quirk :
    ∀ (s : Status) (steps : List LifecycleStep),
      GetLifecycle s = (steps, none) →
      steps ≠ [] ∧
      steps.getLast? = some ⟨"git-commit", StatusDone⟩ ∧
      steps.dropLast.getLast? = some ⟨"code-review", StatusDone⟩ := by
  intro s steps h
  unfold GetLifecycle at h
  split at h <;> [skip; split at h] <;> [skip; skip; split at h] <;>
    [skip; skip; skip; split at h] <;> [skip; skip; skip; skip; split at h] <;>
    simp only [Prod.mk.injEq] at h
  all_goals first
  | (obtain ⟨hsteps, -⟩ := h; subst hsteps; refine ⟨by decide, by decide, by decide⟩)
  | (exact absurd h.2 (by decide))

/-- Witness for C7 at the backlog status and its concrete four-step sequence. -/
theorem c7_terminal_status_quirk_witness :
    GetLifecycle StatusBacklog = (FullBacklogSequence, none) ∧
    (FullBacklogSequence ≠ [] ∧
     FullBacklogSequence.getLast? = some ⟨"git-commit", StatusDone⟩ ∧
     FullBacklogSequence.dropLast.getLast? = some ⟨"code-review", StatusDone⟩) :=
  ⟨by decide, c7_terminal_status_quirk StatusBacklog FullBacklogSequence (by decide)⟩

/-- C9: every sequence `GetLifecycle` returns without a sentinel error is a
non-empty suffix of the full four-step backlog sequence, ends in the step
(git-commit -> done), and every `NextStatus` occurring in it is one of
ready-for-dev, review, done. -/
theorem c9_suffix_invariant :
    ∀ (s : Status) (steps : List LifecycleStep),
      GetLifecycle s = (steps, none) →
      steps ≠ [] ∧
      List.IsSuffix steps FullBacklogSequence ∧
      steps.getLast? = some ⟨"git-commit", StatusDone⟩ ∧
      ∀ st ∈ steps, st.nextStatus ∈ [StatusReadyForDev, StatusReview, StatusDone] := by
  intro s steps h
  unfold GetLifecycle at h
  split at h <;> [skip; split at h] <;> [skip; skip; split at h] <;>
    [skip; skip; skip; split at h] <;> [skip; skip; skip; skip; split at h] <;>
    simp only [Prod.mk.injEq] at h
  · obtain ⟨hsteps, -⟩ := h
    subst hsteps
    exact ⟨by decide, ⟨[], rfl⟩, by decide, by decide⟩
  · obtain ⟨hsteps, -⟩ := h
    subst hsteps
    exact ⟨by decide, ⟨[⟨"create-story", StatusReadyForDev⟩], rfl⟩, by decide, by decide⟩
  · obtain ⟨hsteps, -⟩ := h
    subst hsteps
    exact ⟨by decide, ⟨[⟨"create-story", StatusReadyForDev⟩], rfl⟩, by decide, by decide⟩
  · obtain ⟨hsteps, -⟩ := h
    subst hsteps
    exact ⟨by decide,
      ⟨[⟨"create-story", StatusReadyForDev⟩, ⟨"dev-story", StatusReview⟩], rfl⟩,
      by decide, by decide⟩
  · exact absurd h.2 (by decide)
  · exact absurd h.2 (by decide)

/-- Witness for C9 at the review status and its concrete two-step sequence. -/
theorem c9_suffix_invariant_witness :
    GetLifecycle StatusReview =
      ([⟨"code-review", StatusDone⟩, ⟨"git-commit", StatusDone⟩], none) ∧
    (([⟨"code-review", StatusDone⟩, ⟨"git-commit", StatusDone⟩] :
        List LifecycleStep) ≠ [] ∧
     List.IsSuffix [⟨"code-review", StatusDone⟩, ⟨"git-commit", StatusDone⟩]
       FullBacklogSequence ∧
     ([⟨"code-review", StatusDone⟩, ⟨"git-commit", StatusDone⟩] :
        List LifecycleStep).getLast? = some ⟨"git-commit", StatusDone⟩ ∧
     ∀ st ∈ ([⟨"code-review", StatusDone⟩, ⟨"git-commit", StatusDone⟩] :
        List LifecycleStep),
       st.nextStatus ∈ [StatusReadyForDev, StatusReview, StatusDone]) :=
  ⟨by decide, c9_suffix_invariant StatusReview
    [⟨"code-review", StatusDone⟩, ⟨"git-commit", StatusDone⟩] (by decide)⟩

/-! ## Executor theorems -/

/-- C4: `GetSteps` makes no runner call, no status write and no
progress-observer call (its trace is empty) for every stored-status lookup
result, and `Execute` behaves exactly as determined by `GetSteps`'s outcome:
on a sentinel or lookup error it returns the same error having performed no
collaborator calls, and on success it executes exactly the sequence `GetSteps`
returns. -/
theorem c4_preview_refines_execute :
    ∀ (readerRes : Except String Status) (runner : Nat → Int)
      (writeErr : Nat → Option String) (hasCb : Bool) (storyKey : String),
      (GetSteps readerRes).1 = [] ∧
      Execute readerRes runner writeErr hasCb storyKey =
        (match (GetSteps readerRes).2 with
         | Except.error e => ([], Except.error e)
         | Except.ok steps =>
             executeSteps runner writeErr hasCb storyKey steps.length steps 0) := by
  intro readerRes runner writeErr hasCb storyKey
  cases readerRes with
  | error msg => exact ⟨rfl, rfl⟩
  | ok s =>
    rcases hgl : GetLifecycle s with ⟨steps, err⟩
    cases err <;> simp [Execute, GetSteps, hgl]

theorem executeSteps_no_checkpoint (runner : Nat → Int)
    (writeErr : Nat → Option String) (hasCb : Bool) (storyKey : String)
    (total : Nat) :
    ∀ (l : List LifecycleStep) (i : Nat),
      (executeSteps runner writeErr hasCb storyKey total l i).1.filter
        isCheckpointEvent = [] := by
  intro l
  induction l with
  | nil => intro i; rfl
  | cons step rest ih =>
    intro i
    simp only [executeSteps]
    by_cases hexit : runner i ≠ 0
    · cases hasCb <;>
        simp [hexit, List.filter_append, List.filter, isCheckpointEvent]
    · cases hw : writeErr i with
      | some msg =>
        cases hasCb <;>
          simp [hexit, hw, List.filter_append, List.filter, isCheckpointEvent]
      | none =>
        cases hasCb <;>
          simp [hexit, hw, List.filter_append, List.filter, isCheckpointEvent, ih]

/-- C1 (amended): `Execute` performs no checkpoint operation at all - its
collaborator-call trace contains no checkpoint save and no checkpoint clear,
in failing and succeeding runs alike (the `Executor` struct has no
checkpoint-store collaborator). -/
theorem c1_no_checkpoint_operations :
    ∀ (readerRes : Except String Status) (runner : Nat → Int)
      (writeErr : Nat → Option String) (hasCb : Bool) (storyKey : String),
      ((Execute readerRes runner writeErr hasCb storyKey).1).filter
        isCheckpointEvent = [] := by
  intro readerRes runner writeErr hasCb storyKey
  cases readerRes with
  | error msg => rfl
  | ok s =>
    rcases hgl : GetLifecycle s with ⟨steps, err⟩
    cases err <;> simp [Execute, hgl, executeSteps_no_checkpoint]

/-- C1 (counterexample): with stored status backlog and the workflow runner
failing on the first call of the four-step run, `Execute` returns the
step-execution error but its trace contains no checkpoint save; and with every
call succeeding, `Execute` returns success but its trace contains no
checkpoint clear - refuting the claimed checkpoint persistence and clearing. -/
theorem c1_checkpoint_counterexample :
    ((Execute (Except.ok StatusBacklog) (fun _ => 1) (fun _ => none) false
        "EPIC-1-story").2 =
          Except.error (ExecError.workflowFailed "create-story" 1) ∧
      (Execute (Except.ok StatusBacklog) (fun _ => 1) (fun _ => none) false
        "EPIC-1-story").1.filter isCheckpointEvent = []) ∧
    ((Execute (Except.ok StatusBacklog) (fun _ => 0) (fun _ => none) false
        "EPIC-1-story").2 = Except.ok () ∧
      (Execute (Except.ok StatusBacklog) (fun _ => 0) (fun _ => none) false
        "EPIC-1-story").1.filter isCheckpointEvent = []) :=
  ⟨⟨rfl, rfl⟩, ⟨rfl, rfl⟩⟩

theorem executeSteps_first_failure (runner : Nat → Int)
    (writeErr : Nat → Option String) (hasCb : Bool) (storyKey : String)
    (total : Nat) :
    ∀ (l : List LifecycleStep) (i m : Nat) (hm : m < l.length),
      (∀ j, j < m → runner (i + j) = 0 ∧ writeErr (i + j) = none) →
      runner (i + m) ≠ 0 →
      (executeSteps runner writeErr hasCb storyKey total l i).1.filter isRunEvent =
        (l.take (m + 1)).map (fun st => Event.runWorkflow st.workflow storyKey) ∧
      (executeSteps runner writeErr hasCb storyKey total l i).1.filter isUpdateEvent =
        (l.take m).map (fun st => Event.updateStatus storyKey st.nextStatus) ∧
      (executeSteps runner writeErr hasCb storyKey total l i).2 =
        Except.error
          (ExecError.workflowFailed (l.get ⟨m, hm⟩).workflow (runner (i + m))) := by
  intro l
  induction l with
  | nil => intro i m hm; exact absurd hm (by simp)
  | cons step rest ih =>
    intro i m hm hprev hfail
    cases m with
    | zero =>
      have hfail0 : runner i ≠ 0 := by simpa using hfail
      cases hasCb <;>
        simp [executeSteps, hfail0, List.filter, isRunEvent, isUpdateEvent,
          isProgressEvent]
    | succ m' =>
      have h0 := hprev 0 (Nat.succ_pos m')
      have hr0 : runner i = 0 := by simpa using h0.1
      have hw0 : writeErr i = none := by simpa using h0.2
      have hm' : m' < rest.length := by simpa using hm
      have hprev' : ∀ j, j < m' →
          runner (i + 1 + j) = 0 ∧ writeErr (i + 1 + j) = none := by
        intro j hj
        have h := hprev (j + 1) (by omega)
        rwa [show i + (j + 1) = i + 1 + j by omega] at h
      have hfail' : runner (i + 1 + m') ≠ 0 := by
        rw [show i + 1 + m' = i + (m' + 1) by omega]; exact hfail
      obtain ⟨ih1, ih2, ih3⟩ := ih (i + 1) m' hm' hprev' hfail'
      have harg : i + (m' + 1) = i + 1 + m' := by omega
      rw [harg]
      cases hasCb <;>
        simp [executeSteps, hr0, hw0, List.filter_append, List.filter,
          isRunEvent, isUpdateEvent, isProgressEvent, ih1, ih2, ih3]

/-- C3: if the workflow runner first returns a non-zero exit code at the
1-based step k = m+1 of the derived sequence (all earlier runner calls return
zero and all earlier status writes succeed), `Execute` makes exactly k runner
calls - those of steps 1..k in order - and exactly k-1 status writes - the
`NextStatus` values of steps 1..k-1 in order, with no write for the failed
step and no step after k executing - and returns the error naming the failing
workflow and its exit code. -/
theorem c3_fail_fast_counts :
    ∀ (st : Status) (steps : List LifecycleStep) (runner : Nat → Int)
      (writeErr : Nat → Option String) (hasCb : Bool) (storyKey : String)
      (m : Nat) (hm : m < steps.length),
      GetLifecycle st = (steps, none) →
      (∀ j, j < m → runner j = 0 ∧ writeErr j = none) →
      runner m ≠ 0 →
      (Execute (Except.ok st) runner writeErr hasCb storyKey).1.filter isRunEvent =
        (steps.take (m + 1)).map (fun s => Event.runWorkflow s.workflow storyKey) ∧
      ((Execute (Except.ok st) runner writeErr hasCb storyKey).1.filter
        isRunEvent).length = m + 1 ∧
      (Execute (Except.ok st) runner writeErr hasCb storyKey).1.filter isUpdateEvent =
        (steps.take m).map (fun s => Event.updateStatus storyKey s.nextStatus) ∧
      ((Execute (Except.ok st) runner writeErr hasCb storyKey).1.filter
        isUpdateEvent).length = m ∧
      (Execute (Except.ok st) runner writeErr hasCb storyKey).2 =
        Except.error
          (ExecError.workflowFailed (steps.get ⟨m, hm⟩).workflow (runner m)) := by
  intro st steps runner writeErr hasCb storyKey m hm hgl hprev hfail
  have hexec : Execute (Except.ok st) runner writeErr hasCb storyKey =
      executeSteps runner writeErr hasCb storyKey steps.length steps 0 := by
    simp [Execute, hgl]
  have hprev0 : ∀ j, j < m → runner (0 + j) = 0 ∧ writeErr (0 + j) = none := by
    intro j hj; simpa using hprev j hj
  have hfail0 : runner (0 + m) ≠ 0 := by simpa using hfail
  obtain ⟨h1, h2, h3⟩ := executeSteps_first_failure runner writeErr hasCb storyKey
    steps.length steps 0 m hm hprev0 hfail0
  rw [hexec]
  refine ⟨h1, ?_, h2, ?_, by simpa using h3⟩
  · rw [h1]; simp [List.length_take]; omega
  · rw [h2]; simp [List.length_take]; omega

/-- Witness for C3: the spec's concrete scenario - stored status backlog, the
second workflow (dev-story) fails with exit code 1: the runner calls are
exactly create-story then dev-story, the single status write is
ready-for-dev, and the error names dev-story and its exit code. -/
theorem c3_fail_fast_counts_witness :
    (1 < FullBacklogSequence.length) ∧
    GetLifecycle StatusBacklog = (FullBacklogSequence, none) ∧
    ((fun i : Nat => if i = 1 then (1 : Int) else 0) 1 ≠ 0) ∧
    ((Execute (Except.ok StatusBacklog) (fun i : Nat => if i = 1 then (1 : Int) else 0)
        (fun _ => none) true "EPIC-1-story").1.filter isRunEvent =
      (FullBacklogSequence.take 2).map
        (fun s => Event.runWorkflow s.workflow "EPIC-1-story") ∧
    ((Execute (Except.ok StatusBacklog) (fun i : Nat => if i = 1 then (1 : Int) else 0)
        (fun _ => none) true "EPIC-1-story").1.filter isRunEvent).length = 2 ∧
    (Execute (Except.ok StatusBacklog) (fun i : Nat => if i = 1 then (1 : Int) else 0)
        (fun _ => none) true "EPIC-1-story").1.filter isUpdateEvent =
      (FullBacklogSequence.take 1).map
        (fun s => Event.updateStatus "EPIC-1-story" s.nextStatus) ∧
    ((Execute (Except.ok StatusBacklog) (fun i : Nat => if i = 1 then (1 : Int) else 0)
        (fun _ => none) true "EPIC-1-story").1.filter isUpdateEvent).length = 1 ∧
    (Execute (Except.ok StatusBacklog) (fun i : Nat => if i = 1 then (1 : Int) else 0)
        (fun _ => none) true "EPIC-1-story").2 =
      Except.error (ExecError.workflowFailed
        (FullBacklogSequence.get ⟨1, by decide⟩).workflow
        ((fun i : Nat => if i = 1 then (1 : Int) else 0) 1))) :=
  ⟨by decide, by decide, by decide,
   c3_fail_fast_counts StatusBacklog FullBacklogSequence
     (fun i : Nat => if i = 1 then (1 : Int) else 0) (fun _ => none) true
     "EPIC-1-story" 1 (by decide) (by decide)
     (fun j hj => by
       have hj0 : j = 0 := by omega
       subst hj0; exact ⟨rfl, rfl⟩)
     (by decide)⟩

theorem executeSteps_all_success (runner : Nat → Int)
    (writeErr : Nat → Option String) (storyKey : String) (total : Nat) :
    ∀ (l : List LifecycleStep) (i : Nat),
      (∀ j, j < l.length → runner (i + j) = 0 ∧ writeErr (i + j) = none) →
      executeSteps runner writeErr true storyKey total l i =
        (fullRunTraceFrom storyKey total l i, Except.ok ()) := by
  intro l
  induction l with
  | nil => intro i h; rfl
  | cons step rest ih =>
    intro i h
    have h0 := h 0 (by simp)
    have hr0 : runner i = 0 := by simpa using h0.1
    have hw0 : writeErr i = none := by simpa using h0.2
    have h' : ∀ j, j < rest.length →
        runner (i + 1 + j) = 0 ∧ writeErr (i + 1 + j) = none := by
      intro j hj
      have hx := h (j + 1) (by simp; omega)
      rwa [show i + (j + 1) = i + 1 + j by omega] at hx
    simp [executeSteps, hr0, hw0, fullRunTraceFrom, ih (i + 1) h']

theorem executeSteps_no_callback (runner : Nat → Int)
    (writeErr : Nat → Option String) (storyKey : String) (total : Nat) :
    ∀ (l : List LifecycleStep) (i : Nat),
      executeSteps runner writeErr false storyKey total l i =
        ((executeSteps runner writeErr true storyKey total l i).1.filter
           (fun e => !isProgressEvent e),
         (executeSteps runner writeErr true storyKey total l i).2) := by
  intro l
  induction l with
  | nil => intro i; rfl
  | cons step rest ih =>
    intro i
    by_cases hexit : runner i ≠ 0
    · simp [executeSteps, hexit, List.filter, isProgressEvent]
    · cases hw : writeErr i with
      | some msg => simp [executeSteps, hexit, hw, List.filter, isProgressEvent]
      | none =>
        simp [executeSteps, hexit, hw, List.filter, isProgressEvent, ih (i + 1)]

theorem executeSteps_progressRun_subtrace (runner : Nat → Int)
    (writeErr : Nat → Option String) (storyKey : String) (total : Nat) :
    ∀ (l : List LifecycleStep) (i : Nat),
      (executeSteps runner writeErr true storyKey total l i).1.filter
          (fun e => isProgressEvent e || isRunEvent e) =
        progressRunPairs storyKey total
          (l.take ((executeSteps runner writeErr true storyKey total
            l i).1.filter isRunEvent).length) i := by
  intro l
  induction l with
  | nil => intro i; rfl
  | cons step rest ih =>
    intro i
    by_cases hexit : runner i ≠ 0
    · simp [executeSteps, hexit, List.filter, isProgressEvent, isRunEvent,
        progressRunPairs]
    · cases hw : writeErr i with
      | some msg =>
        simp [executeSteps, hexit, hw, List.filter, isProgressEvent,
          isRunEvent, progressRunPairs]
      | none =>
        have ih2 := ih (i + 1)
        simp [executeSteps, hexit, hw, List.filter, isProgressEvent,
          isRunEvent, progressRunPairs, List.take_succ_cons] at ih2 ⊢
        exact ih2

theorem executeSteps_progress_count (runner : Nat → Int)
    (writeErr : Nat → Option String) (storyKey : String) (total : Nat) :
    ∀ (l : List LifecycleStep) (i : Nat),
      ((executeSteps runner writeErr true storyKey total l i).1.filter
        isProgressEvent).length =
      ((executeSteps runner writeErr true storyKey total l i).1.filter
        isRunEvent).length := by
  intro l
  induction l with
  | nil => intro i; rfl
  | cons step rest ih =>
    intro i
    by_cases hexit : runner i ≠ 0
    · simp [executeSteps, hexit, List.filter, isProgressEvent, isRunEvent]
    · cases hw : writeErr i with
      | some msg =>
        simp [executeSteps, hexit, hw, List.filter, isProgressEvent, isRunEvent]
      | none =>
        have ih2 := ih (i + 1)
        simp [executeSteps, hexit, hw, List.filter, isProgressEvent,
          isRunEvent] at ih2 ⊢
        exact ih2

/-- C5 (amended): with an observer registered, in EVERY run over an
error-free derived sequence - halting at a workflow failure, at a status
write failure, or not at all - the observer is invoked exactly once per
attempted step: the progress/runner subtrace of the run is exactly the
alternation `progress (i+1, N, workflow of step i); runner call of step i`
over the attempted prefix of the sequence (so the invocations carry
(i, N, workflow) for i = 1..A in strictly increasing order, each placed
immediately before its runner call), and the number of observer invocations
always equals the number of runner calls; in particular, a run in which every
step is attempted successfully has exactly N invocations and the exact full
interleaved trace; and with no observer registered, `Execute` performs the
same runner calls and status writes and returns the same result - only the
progress notifications are absent, causing no error. -/
theorem c5_progress_observer :
    (∀ (st : Status) (steps : List LifecycleStep) (runner : Nat → Int)
       (writeErr : Nat → Option String) (storyKey : String),
       GetLifecycle st = (steps, none) →
       (Execute (Except.ok st) runner writeErr true storyKey).1.filter
           (fun e => isProgressEvent e || isRunEvent e) =
         progressRunPairs storyKey steps.length
           (steps.take (((Execute (Except.ok st) runner writeErr true
             storyKey).1.filter isRunEvent).length)) 0 ∧
       ((Execute (Except.ok st) runner writeErr true storyKey).1.filter
           isProgressEvent).length =
         ((Execute (Except.ok st) runner writeErr true storyKey).1.filter
           isRunEvent).length) ∧
    (∀ (st : Status) (steps : List LifecycleStep) (runner : Nat → Int)
       (writeErr : Nat → Option String) (storyKey : String),
       GetLifecycle st = (steps, none) →
       (∀ j, j < steps.length → runner j = 0 ∧ writeErr j = none) →
       Execute (Except.ok st) runner writeErr true storyKey =
         (fullRunTrace steps storyKey steps.length, Except.ok ())) ∧
    (∀ (readerRes : Except String Status) (runner : Nat → Int)
       (writeErr : Nat → Option String) (storyKey : String),
       Execute readerRes runner writeErr false storyKey =
         ((Execute readerRes runner writeErr true storyKey).1.filter
            (fun e => !isProgressEvent e),
          (Execute readerRes runner writeErr true storyKey).2)) := by
  refine ⟨?_, ?_, ?_⟩
  · intro st steps runner writeErr storyKey hgl
    have hexec : Execute (Except.ok st) runner writeErr true storyKey =
        executeSteps runner writeErr true storyKey steps.length steps 0 := by
      simp [Execute, hgl]
    rw [hexec]
    exact ⟨executeSteps_progressRun_subtrace runner writeErr storyKey
        steps.length steps 0,
      executeSteps_progress_count runner writeErr storyKey
        steps.length steps 0⟩
  · intro st steps runner writeErr storyKey hgl hok
    have hok0 : ∀ j, j < steps.length →
        runner (0 + j) = 0 ∧ writeErr (0 + j) = none := by
      intro j hj; simpa using hok j hj
    simp [Execute, hgl, fullRunTrace,
      executeSteps_all_success runner writeErr storyKey steps.length steps 0 hok0]
  · intro readerRes runner writeErr storyKey
    cases readerRes with
    | error msg => rfl
    | ok s =>
      rcases hgl : GetLifecycle s with ⟨steps, err⟩
      cases err <;> simp [Execute, hgl, executeSteps_no_callback]

/-- Witness for C5, exercising both run shapes. Failing run: stored status
backlog (N = 4), second workflow fails - the progress/runner subtrace is the
alternation over the two attempted steps, and invocations equal runner calls.
Successful run: stored status review (two steps), every call succeeding - the
trace is the exact interleaving with progress arguments (1, 2, code-review)
and (2, 2, git-commit). -/
theorem c5_progress_observer_witness :
    (GetLifecycle StatusBacklog = (FullBacklogSequence, none) ∧
     ((Execute (Except.ok StatusBacklog)
          (fun i : Nat => if i = 1 then (1 : Int) else 0)
          (fun _ => none) true "EPIC-1-story").1.filter
         (fun e => isProgressEvent e || isRunEvent e) =
       progressRunPairs "EPIC-1-story" FullBacklogSequence.length
         (FullBacklogSequence.take (((Execute (Except.ok StatusBacklog)
           (fun i : Nat => if i = 1 then (1 : Int) else 0)
           (fun _ => none) true "EPIC-1-story").1.filter
             isRunEvent).length)) 0 ∧
      ((Execute (Except.ok StatusBacklog)
          (fun i : Nat => if i = 1 then (1 : Int) else 0)
          (fun _ => none) true "EPIC-1-story").1.filter
         isProgressEvent).length =
        ((Execute (Except.ok StatusBacklog)
          (fun i : Nat => if i = 1 then (1 : Int) else 0)
          (fun _ => none) true "EPIC-1-story").1.filter
         isRunEvent).length)) ∧
    (GetLifecycle StatusReview =
       ([⟨"code-review", StatusDone⟩, ⟨"git-commit", StatusDone⟩], none) ∧
     (∀ j, j < ([⟨"code-review", StatusDone⟩, ⟨"git-commit", StatusDone⟩] :
         List LifecycleStep).length →
       (fun _ : Nat => (0 : Int)) j = 0 ∧
       (fun _ : Nat => (none : Option String)) j = none) ∧
     Execute (Except.ok StatusReview) (fun _ => 0) (fun _ => none) true
         "7-2-create-api" =
       (fullRunTrace [⟨"code-review", StatusDone⟩, ⟨"git-commit", StatusDone⟩]
         "7-2-create-api" 2, Except.ok ())) :=
  ⟨⟨by decide,
    c5_progress_observer.1 StatusBacklog FullBacklogSequence
      (fun i : Nat => if i = 1 then (1 : Int) else 0) (fun _ => none)
      "EPIC-1-story" (by decide)⟩,
   ⟨by decide, fun j hj => ⟨rfl, rfl⟩,
    c5_progress_observer.2.1 StatusReview
      [⟨"code-review", StatusDone⟩, ⟨"git-commit", StatusDone⟩]
      (fun _ => 0) (fun _ => none) "7-2-create-api" (by decide)
      (fun j hj => ⟨rfl, rfl⟩)⟩⟩

/-- C5 (counterexample): the backlog status derives a four-step sequence, yet
with an observer registered and the first workflow failing, `Execute` invokes
the observer exactly once - not four times - refuting the unconditional
N-invocations claim. -/
theorem c5_observer_counterexample :
    GetLifecycle StatusBacklog = (FullBacklogSequence, none) ∧
    FullBacklogSequence.length = 4 ∧
    (Execute (Except.ok StatusBacklog) (fun _ => 1) (fun _ => none) true
        "EPIC-1-story").1.filter isProgressEvent =
      [Event.progress 1 4 "create-story"] :=
  ⟨by decide, by decide, by decide⟩

/-! ## Status writer theorems -/

/-- C8: for every stored-file state, story key and status value outside the
enumerated set, `Writer.UpdateStatus` returns the invalid-status error - the
validation is the first action, before any file read, so the stored file is
untouched - and an update reaches the write (succeeds) only when the new
status belongs to the enumerated set: validate-then-persist. -/
theorem c8_validate_then_persist :
    (∀ (file : ReadResult) (storyKey : String) (newStatus : Status),
       StatusIsValid newStatus = false →
       UpdateStatus file storyKey newStatus =
         Except.error (WriteError.invalidStatus newStatus)) ∧
    (∀ (file : ReadResult) (storyKey : String) (newStatus : Status)
       (d : YamlNode),
       UpdateStatus file storyKey newStatus = Except.ok d →
       StatusIsValid newStatus = true) := by
  constructor
  · intro file storyKey newStatus h
    simp [UpdateStatus, h]
  · intro file storyKey newStatus d h
    cases hv : StatusIsValid newStatus with
    | true => rfl
    | false => simp [UpdateStatus, hv] at h

/-- Witness for C8: on the three-story fixture, the out-of-set value
`invalid-status` is rejected with the invalid-status error, while the
enumerated value `in-progress` reaches the write and succeeds. -/
theorem c8_validate_then_persist_witness :
    (StatusIsValid "invalid-status" = false ∧
     UpdateStatus (ReadResult.doc testSprintDoc) "7-1-define-schema"
         "invalid-status" =
       Except.error (WriteError.invalidStatus "invalid-status")) ∧
    (UpdateStatus (ReadResult.doc testSprintDoc) "7-1-define-schema"
         "in-progress" = Except.ok testSprintDocUpdated71 ∧
     StatusIsValid "in-progress" = true) :=
  ⟨⟨rfl, c8_validate_then_persist.1 (ReadResult.doc testSprintDoc)
      "7-1-define-schema" "invalid-status" rfl⟩,
   ⟨rfl, c8_validate_then_persist.2 (ReadResult.doc testSprintDoc)
      "7-1-define-schema" "in-progress" testSprintDocUpdated71 rfl⟩⟩

theorem updateMapValue_spec :
    ∀ (l : List YamlNode) (key newVal : String) (l2 : List YamlNode),
      updateMapValue l key newVal = some l2 →
      keysOfPairs l2 = keysOfPairs l ∧
      findMapValue l2 key =
        (findMapValue l key).map (fun n => setNodeValue n newVal) ∧
      ∀ k2, k2 ≠ key → findMapValue l2 k2 = findMapValue l k2
  | [], key, newVal, l2, h => by simp [updateMapValue] at h
  | [k], key, newVal, l2, h => by simp [updateMapValue] at h
  | k :: v :: rest, key, newVal, l2, h => by
    by_cases hk : k.value = key
    · simp only [updateMapValue, if_pos hk, Option.some.injEq] at h
      subst h
      refine ⟨by simp [keysOfPairs], ?_, ?_⟩
      · simp [findMapValue, hk]
      · intro k2 hk2
        have hkv : ¬ k.value = k2 := by rw [hk]; exact fun hx => hk2 hx.symm
        simp [findMapValue, hkv]
    · cases hrec : updateMapValue rest key newVal with
      | none => simp [updateMapValue, hk, hrec] at h
      | some rest2 =>
        simp only [updateMapValue, if_neg hk, hrec, Option.some.injEq] at h
        subst h
        obtain ⟨ih1, ih2, ih3⟩ := updateMapValue_spec rest key newVal rest2 hrec
        refine ⟨by simp [keysOfPairs, ih1], by simp [findMapValue, hk, ih2], ?_⟩
        intro k2 hk2
        by_cases hkv : k.value = k2
        · simp [findMapValue, hkv]
        · simp [findMapValue, hkv, ih3 k2 hk2]

theorem updateMapValue_none :
    ∀ (l : List YamlNode) (key newVal : String),
      updateMapValue l key newVal = none ↔ findMapValue l key = none
  | [], key, newVal => by simp [updateMapValue, findMapValue]
  | [k], key, newVal => by simp [updateMapValue, findMapValue]
  | k :: v :: rest, key, newVal => by
    by_cases hk : k.value = key
    · simp [updateMapValue, findMapValue, hk]
    · cases hrec : updateMapValue rest key newVal with
      | none =>
        have hfind := (updateMapValue_none rest key newVal).mp hrec
        simp [updateMapValue, findMapValue, hk, hrec, hfind]
      | some rest2 =>
        have hiff := updateMapValue_none rest key newVal
        rw [hrec] at hiff
        simp only [reduceCtorEq, false_iff] at hiff
        simp [updateMapValue, findMapValue, hk, hrec, hiff]

theorem updateRootPairs_spec :
    ∀ (pairs : List YamlNode) (storyKey : String) (newStatus : Status)
      (pairs2 : List YamlNode),
      updateRootPairs pairs storyKey newStatus = Except.ok pairs2 →
      keysOfPairs pairs2 = keysOfPairs pairs ∧
      ∃ dev newContent,
        findMapValue pairs "development_status" = some dev ∧
        updateMapValue dev.content storyKey newStatus = some newContent ∧
        findMapValue pairs2 "development_status" =
          some (YamlNode.node dev.kind dev.value newContent)
  | [], storyKey, newStatus, pairs2, h => by simp [updateRootPairs] at h
  | [k], storyKey, newStatus, pairs2, h => by simp [updateRootPairs] at h
  | k :: v :: rest, storyKey, newStatus, pairs2, h => by
    by_cases hk : k.value = "development_status"
    · by_cases hvk : v.kind = YamlKind.mapping
      · cases hupd : updateMapValue v.content storyKey newStatus with
        | none => simp [updateRootPairs, hk, hvk, hupd] at h
        | some newPairs =>
          simp only [updateRootPairs, if_pos hk, hvk, ne_eq, not_true_eq_false,
            if_false, hupd, Except.ok.injEq] at h
          subst h
          refine ⟨by simp [keysOfPairs], v, newPairs, ?_, hupd, ?_⟩
          · simp [findMapValue, hk]
          · simp [findMapValue, hk, hvk]
      · simp [updateRootPairs, hk, hvk] at h
    · cases hrec : updateRootPairs rest storyKey newStatus with
      | error e => simp [updateRootPairs, hk, hrec] at h
      | ok rest2 =>
        simp only [updateRootPairs, if_neg hk, hrec, Except.ok.injEq] at h
        subst h
        obtain ⟨ih1, dev, newContent, ihf, ihu, ihf2⟩ :=
          updateRootPairs_spec rest storyKey newStatus rest2 hrec
        exact ⟨by simp [keysOfPairs, ih1], dev, newContent,
          by simp [findMapValue, hk, ihf],
          ihu, by simp [findMapValue, hk, ihf2]⟩

theorem updateRootPairs_storyNotFound :
    ∀ (pairs : List YamlNode) (storyKey : String) (newStatus : Status)
      (dev : YamlNode),
      findMapValue pairs "development_status" = some dev →
      dev.kind = YamlKind.mapping →
      updateMapValue dev.content storyKey newStatus = none →
      updateRootPairs pairs storyKey newStatus =
        Except.error (WriteError.storyNotFound storyKey)
  | [], storyKey, newStatus, dev, hfind, _, _ => by
    simp [findMapValue] at hfind
  | [k], storyKey, newStatus, dev, hfind, _, _ => by
    simp [findMapValue] at hfind
  | k :: v :: rest, storyKey, newStatus, dev, hfind, hkind, hupd => by
    by_cases hk : k.value = "development_status"
    · simp only [findMapValue, if_pos hk, Option.some.injEq] at hfind
      subst hfind
      simp [updateRootPairs, hk, hkind, hupd]
    · simp only [findMapValue, if_neg hk] at hfind
      simp [updateRootPairs, hk,
        updateRootPairs_storyNotFound rest storyKey newStatus dev hfind hkind hupd]

theorem updateStoryStatusInNode_ok (doc : YamlNode) (storyKey : String)
    (newStatus : Status) (d2 : YamlNode)
    (h : updateStoryStatusInNode doc storyKey newStatus = Except.ok d2) :
    ∃ dv rv rcontent restDoc pairs2,
      doc = YamlNode.node YamlKind.document dv
        (YamlNode.node YamlKind.mapping rv rcontent :: restDoc) ∧
      updateRootPairs rcontent storyKey newStatus = Except.ok pairs2 ∧
      d2 = YamlNode.node YamlKind.document dv
        (YamlNode.node YamlKind.mapping rv pairs2 :: restDoc) := by
  rcases doc with ⟨dk, dv, dcontent⟩
  by_cases hdk : dk = YamlKind.document
  · subst hdk
    cases dcontent with
    | nil =>
      simp [updateStoryStatusInNode, YamlNode.kind, YamlNode.content] at h
    | cons root restDoc =>
      rcases root with ⟨rk, rv, rcontent⟩
      by_cases hrk : rk = YamlKind.mapping
      · subst hrk
        cases hroot : updateRootPairs rcontent storyKey newStatus with
        | error e =>
          simp [updateStoryStatusInNode, YamlNode.kind, YamlNode.content,
            YamlNode.value, hroot] at h
        | ok pairs2 =>
          simp [updateStoryStatusInNode, YamlNode.kind, YamlNode.content,
            YamlNode.value, hroot] at h
          exact ⟨dv, rv, rcontent, restDoc, pairs2, rfl, hroot, h.symm⟩
      · simp [updateStoryStatusInNode, YamlNode.kind, YamlNode.content,
          YamlNode.value, hrk] at h
  · simp [updateStoryStatusInNode, YamlNode.kind, hdk] at h

/-- C10: when `Writer.UpdateStatus` succeeds on a parsed document, only the
value recorded for the story key under `development_status` changes - it
becomes the new status - while every other story key keeps its value and the
order of the story keys and of the root-level keys is preserved; and when the
story key is absent from `development_status`, `UpdateStatus` returns the
story-not-found error. -/
theorem c10_update_frame :
    (∀ (doc : YamlNode) (storyKey : String) (newStatus : Status) (d2 : YamlNode),
       UpdateStatus (ReadResult.doc doc) storyKey newStatus = Except.ok d2 →
       storyStatusOf d2 storyKey = some newStatus ∧
       (∀ k2, k2 ≠ storyKey → storyStatusOf d2 k2 = storyStatusOf doc k2) ∧
       storyKeysOf d2 = storyKeysOf doc ∧
       rootKeysOf d2 = rootKeysOf doc) ∧
    (∀ (dv : String) (root : YamlNode) (restDoc : List YamlNode)
       (storyKey : String) (newStatus : Status) (dev : YamlNode),
       StatusIsValid newStatus = true →
       root.kind = YamlKind.mapping →
       findMapValue root.content "development_status" = some dev →
       dev.kind = YamlKind.mapping →
       findMapValue dev.content storyKey = none →
       UpdateStatus (ReadResult.doc (YamlNode.node YamlKind.document dv
           (root :: restDoc))) storyKey newStatus =
         Except.error (WriteError.storyNotFound storyKey)) := by
  constructor
  · intro doc storyKey newStatus d2 h
    cases hval : StatusIsValid newStatus with
    | false => simp [UpdateStatus, hval] at h
    | true =>
      simp only [UpdateStatus, hval, Bool.not_true, Bool.false_eq_true,
        if_false] at h
      obtain ⟨dv, rv, rcontent, restDoc, pairs2, hdoc, hroot, hd2⟩ :=
        updateStoryStatusInNode_ok doc storyKey newStatus d2 h
      subst hdoc
      subst hd2
      obtain ⟨hkeys, dev, newContent, hfdev, hupd, hfdev2⟩ :=
        updateRootPairs_spec rcontent storyKey newStatus pairs2 hroot
      rcases dev with ⟨devk, devv, devc⟩
      simp only [YamlNode.kind, YamlNode.value, YamlNode.content] at hupd hfdev2
      obtain ⟨hk1, hk2, hk3⟩ :=
        updateMapValue_spec devc storyKey newStatus newContent hupd
      cases hfsk : findMapValue devc storyKey with
      | none =>
        rw [(updateMapValue_none devc storyKey newStatus).mpr hfsk] at hupd
        exact absurd hupd (by simp)
      | some v0 =>
        rw [hfsk] at hk2
        refine ⟨?_, ?_, ?_, ?_⟩
        · simp [storyStatusOf, YamlNode.content, hfdev2, hk2,
            setNodeValue, YamlNode.value]
        · intro k2 hk2ne
          simp [storyStatusOf, YamlNode.content, hfdev2, hfdev, hk3 k2 hk2ne]
        · simp [storyKeysOf, YamlNode.content, hfdev2, hfdev, hk1]
        · simp [rootKeysOf, YamlNode.content, hkeys]
  · intro dv root restDoc storyKey newStatus dev hval hrk hfdev hdevk hfsk
    rcases root with ⟨rk, rv, rcontent⟩
    simp only [YamlNode.kind] at hrk
    subst hrk
    simp only [YamlNode.content] at hfdev
    have hupd := (updateMapValue_none dev.content storyKey newStatus).mpr hfsk
    have hroot := updateRootPairs_storyNotFound rcontent storyKey newStatus
      dev hfdev hdevk hupd
    simp [UpdateStatus, hval, updateStoryStatusInNode, YamlNode.kind,
      YamlNode.content, YamlNode.value, hroot]

/-- Witness for C10: on the three-story fixture, updating `7-2-create-api` to
`review` changes only that entry and preserves the other stories and the key
order; updating the absent key `nonexistent-story` yields the story-not-found
error. -/
theorem c10_update_frame_witness :
    (UpdateStatus (ReadResult.doc testSprintDoc) "7-2-create-api" "review" =
       Except.ok testSprintDocUpdated72 ∧
     (storyStatusOf testSprintDocUpdated72 "7-2-create-api" = some "review" ∧
      (∀ k2, k2 ≠ "7-2-create-api" →
        storyStatusOf testSprintDocUpdated72 k2 = storyStatusOf testSprintDoc k2) ∧
      storyKeysOf testSprintDocUpdated72 = storyKeysOf testSprintDoc ∧
      rootKeysOf testSprintDocUpdated72 = rootKeysOf testSprintDoc)) ∧
    (StatusIsValid "done" = true ∧
     testRootNode.kind = YamlKind.mapping ∧
     findMapValue testRootNode.content "development_status" =
       some testDevStatusNode ∧
     testDevStatusNode.kind = YamlKind.mapping ∧
     findMapValue testDevStatusNode.content "nonexistent-story" = none ∧
     UpdateStatus (ReadResult.doc (YamlNode.node YamlKind.document ""
         (testRootNode :: []))) "nonexistent-story" "done" =
       Except.error (WriteError.storyNotFound "nonexistent-story")) :=
  ⟨⟨rfl, c10_update_frame.1 testSprintDoc "7-2-create-api" "review"
      testSprintDocUpdated72 rfl⟩,
   ⟨rfl, rfl, rfl, rfl, rfl,
    c10_update_frame.2 "" testRootNode [] "nonexistent-story" "done"
      testDevStatusNode rfl rfl rfl rfl rfl⟩⟩
